import Mathlib

/-
A shallow embedding of the champion-select engine in src/main.rs and proofs
about its resolution behaviour.  Dynamic JSON field access is modelled with
Option fields (an absent field is none, and the source's .unwrap() on it is a
panic); the two retrying while-loops are modelled with an explicit fuel
parameter, fuel exhaustion standing for non-termination; the external
transport's outcome for the k-th PATCH issued while handling one event is an
oracle function Nat → Bool.
-/

namespace LolQ

/-- Configuration loaded from config.toml: the ordered preference lists of
champion names for picks and bans (struct Config, main.rs lines 16-20). -/
structure Config where
  picks : List String
  bans : List String
deriving Repr, DecidableEq

/-- One entry of the nested actions array of a champ-select session snapshot,
with exactly the fields main.rs reads (id, actorCellId, type, isInProgress)
plus championId and completed, which the snapshot carries but the code never
reads.  A field is none when absent or of the wrong JSON type. -/
structure RawAction where
  id : Option Int
  actorCellId : Option Int
  type : Option String
  championId : Option Int
  completed : Option Bool
  isInProgress : Option Bool
deriving Repr, DecidableEq

/-- One entry of session.myTeam (main.rs lines 300-306). -/
structure RawTeammate where
  cellId : Option Int
  assignedPosition : Option String
deriving Repr, DecidableEq

/-- A champ-select session snapshot as accessed by main.rs lines 292-311:
localPlayerCellId, timer.phase (collapsed into one optional string, since
indexing through an absent timer object yields JSON null and then
as_str() is None), myTeam and the nested actions array.  An actions group
that is not itself an array is an inner none. -/
structure RawSession where
  localPlayerCellId : Option Int
  timerPhase : Option String
  myTeam : Option (List RawTeammate)
  actions : Option (List (Option (List RawAction)))
deriving Repr, DecidableEq

/-- Result of the live-telemetry poll of main.rs lines 391-399: the request
either errs (modelled as the whole poll being none at the call site) or
returns a status plus a body; gameTime is none when the body does not parse
or gameData.gameTime is absent, in which case the source's .unwrap() panics. -/
structure PollData where
  statusSuccess : Bool
  gameTime : Option ℚ
deriving Repr, DecidableEq

/-- The body and target of one PATCH .../actions/{id} request
(main.rs lines 328-333): a submission intent handed to the transport. -/
structure Submission where
  actionId : Int
  championId : Int
  completed : Bool
deriving Repr, DecidableEq

/-- How one of the ban/pick while-loops ends: done (normal exit after a
successful submission, carrying the final cursor), fuelOut (the loop was
still running when the fuel bound was reached, i.e. it did not terminate),
or panicked (an out-of-bounds index on the preference list). -/
inductive ScanRes where
  | done (cursor : Nat)
  | fuelOut (cursor : Nat)
  | panicked
deriving Repr, DecidableEq

/-- Outcome of a piece of event processing: a value, a Rust panic, or a
while-loop that never terminates. -/
inductive Outcome (α : Type) where
  | ok (val : α)
  | panicked
  | hang
deriving Repr, DecidableEq

/-- champions_map.get: champion-name to champion-id lookup
(built at main.rs lines 228-231, queried at lines 327, 350, 374).  The map
is carried as an association list queried by first match; champion names are
unique, so this agrees with the source's hash map. -/
def champLookup (cmap : List (String × Int)) (name : String) : Option Int :=
  match cmap with
  | [] => none
  | (k, v) :: rest => if k = name then some v else champLookup rest name

/-- The ban while-loop of main.rs lines 325-344.  Arguments after the oracle:
fuel, the oracle index (how many PATCHes were already issued for this event),
and ban_number.  The trace records, per PATCH issued, the cursor index at that
attempt, the request, and whether it succeeded.  An entry absent from the
lookup map advances the cursor modulo the list length without a PATCH; a
failed PATCH changes nothing before the loop re-enters; a successful PATCH
increments ban_number and exits the loop. -/
def banScan (bans : List String) (cmap : List (String × Int)) (aid : Int)
    (orc : Nat → Bool) :
    Nat → Nat → Nat → List (Nat × Submission × Bool) × ScanRes
  | 0, _, n => ([], ScanRes.fuelOut n)
  | fuel + 1, a, n =>
    match bans[n]? with
    | none => ([], ScanRes.panicked)
    | some name =>
      match champLookup cmap name with
      | some cid =>
        if orc a then
          ([(n, ⟨aid, cid, true⟩, true)], ScanRes.done (n + 1))
        else
          let r := banScan bans cmap aid orc fuel (a + 1) n
          ((n, ⟨aid, cid, true⟩, false) :: r.1, r.2)
      | none => banScan bans cmap aid orc fuel a ((n + 1) % bans.length)

/-- The pick while-loop of main.rs lines 348-365: identical to the ban loop
except that a successful PATCH leaves pick_number unchanged (the source sets
only am_i_picking to false, without incrementing the cursor). -/
def pickScan (picks : List String) (cmap : List (String × Int)) (aid : Int)
    (orc : Nat → Bool) :
    Nat → Nat → Nat → List (Nat × Submission × Bool) × ScanRes
  | 0, _, n => ([], ScanRes.fuelOut n)
  | fuel + 1, a, n =>
    match picks[n]? with
    | none => ([], ScanRes.panicked)
    | some name =>
      match champLookup cmap name with
      | some cid =>
        if orc a then
          ([(n, ⟨aid, cid, true⟩, true)], ScanRes.done n)
        else
          let r := pickScan picks cmap aid orc fuel (a + 1) n
          ((n, ⟨aid, cid, true⟩, false) :: r.1, r.2)
      | none => pickScan picks cmap aid orc fuel a ((n + 1) % picks.length)

/-- The mutable locals of main (lines 252-259) together with the shared
running flag (line 235) that the while-let loop tests. -/
structure EngineState where
  pickNumber : Nat
  banNumber : Nat
  amIAssigned : Bool
  amIPicking : Bool
  amIBanning : Bool
  haveIPrepicked : Bool
  inGame : Bool
  actionId : Int
  running : Bool
deriving Repr, DecidableEq

/-- The state at engine start: counters zero, all flags false, running true. -/
def initState : EngineState :=
  ⟨0, 0, false, false, false, false, false, 0, true⟩

/-- The myTeam scan of main.rs lines 300-306: for each teammate whose cellId
equals the local cell id, unwrap assignedPosition (panicking when absent) and
set am_i_assigned. -/
def scanTeam (l : Int) : List RawTeammate → Bool → Outcome Bool
  | [], b => Outcome.ok b
  | t :: ts, b =>
    if t.cellId = some l then
      match t.assignedPosition with
      | none => Outcome.panicked
      | some _ => scanTeam l ts true
    else scanTeam l ts b

/-- Processing of a single action entry (main.rs lines 311-366): when the
actor is local and the action is in progress, record action_id, raise the
banning/picking flag matching the type, and, in phase BAN_PICK, run the
corresponding while-loop.  Returns the updated state, the new oracle index,
and the submissions issued (with success flags). -/
def processAction (cfg : Config) (cmap : List (String × Int)) (phase : String)
    (l : Int) (orc : Nat → Bool) (fuel : Nat) (a : RawAction)
    (st : EngineState) (cnt : Nat) :
    Outcome (EngineState × Nat × List (Submission × Bool)) :=
  if a.actorCellId = some l then
    match a.isInProgress with
    | none => Outcome.panicked
    | some ip =>
      if ip then
        match a.type with
        | none => Outcome.panicked
        | some ty =>
          match a.id with
          | none => Outcome.panicked
          | some k =>
            let st1 : EngineState := { st with actionId := k }
            let st2 : EngineState :=
              if ty = "ban" then { st1 with amIBanning := ip } else st1
            let st3 : EngineState :=
              if ty = "pick" then { st2 with amIPicking := ip } else st2
            if ty = "ban" ∧ phase = "BAN_PICK" ∧ st3.amIBanning then
              let r := banScan cfg.bans cmap k orc fuel cnt st3.banNumber
              match r.2 with
              | ScanRes.done n2 =>
                Outcome.ok ({ st3 with banNumber := n2, amIBanning := false },
                  cnt + r.1.length, r.1.map (fun x => x.2))
              | ScanRes.fuelOut _ => Outcome.hang
              | ScanRes.panicked => Outcome.panicked
            else if ty = "pick" ∧ phase = "BAN_PICK" ∧ st3.amIPicking then
              let r := pickScan cfg.picks cmap k orc fuel cnt st3.pickNumber
              match r.2 with
              | ScanRes.done n2 =>
                Outcome.ok ({ st3 with pickNumber := n2, amIPicking := false },
                  cnt + r.1.length, r.1.map (fun x => x.2))
              | ScanRes.fuelOut _ => Outcome.hang
              | ScanRes.panicked => Outcome.panicked
            else Outcome.ok (st3, cnt, [])
      else Outcome.ok (st, cnt, [])
  else Outcome.ok (st, cnt, [])

/-- The inner for-loop over one actions group (main.rs line 310). -/
def processActionsList (cfg : Config) (cmap : List (String × Int))
    (phase : String) (l : Int) (orc : Nat → Bool) (fuel : Nat) :
    List RawAction → EngineState → Nat →
    Outcome (EngineState × Nat × List (Submission × Bool))
  | [], st, cnt => Outcome.ok (st, cnt, [])
  | a :: rest, st, cnt =>
    match processAction cfg cmap phase l orc fuel a st cnt with
    | Outcome.ok (st1, cnt1, subs1) =>
      match processActionsList cfg cmap phase l orc fuel rest st1 cnt1 with
      | Outcome.ok (st2, cnt2, subs2) => Outcome.ok (st2, cnt2, subs1 ++ subs2)
      | Outcome.panicked => Outcome.panicked
      | Outcome.hang => Outcome.hang
    | Outcome.panicked => Outcome.panicked
    | Outcome.hang => Outcome.hang

/-- The outer for-loop over the actions array (main.rs line 309); a group
that is not an array makes as_array().unwrap() panic. -/
def processGroups (cfg : Config) (cmap : List (String × Int))
    (phase : String) (l : Int) (orc : Nat → Bool) (fuel : Nat) :
    List (Option (List RawAction)) → EngineState → Nat →
    Outcome (EngineState × Nat × List (Submission × Bool))
  | [], st, cnt => Outcome.ok (st, cnt, [])
  | none :: _, _, _ => Outcome.panicked
  | some acts :: rest, st, cnt =>
    match processActionsList cfg cmap phase l orc fuel acts st cnt with
    | Outcome.ok (st1, cnt1, subs1) =>
      match processGroups cfg cmap phase l orc fuel rest st1 cnt1 with
      | Outcome.ok (st2, cnt2, subs2) => Outcome.ok (st2, cnt2, subs1 ++ subs2)
      | Outcome.panicked => Outcome.panicked
      | Outcome.hang => Outcome.hang
    | Outcome.panicked => Outcome.panicked
    | Outcome.hang => Outcome.hang

/-- The PLANNING pre-pick block (main.rs lines 372-386): when the phase is
PLANNING and have_i_prepicked is false, index picks[0] (panicking when the
pick list is empty), look it up, and, when found, PATCH with completed false
using the last recorded action id; set have_i_prepicked on success only. -/
def planningStep (cfg : Config) (cmap : List (String × Int)) (phase : String)
    (orc : Nat → Bool) (cnt : Nat) (st2 : EngineState)
    (subs : List (Submission × Bool)) :
    Outcome (EngineState × List (Submission × Bool)) :=
  if phase = "PLANNING" ∧ st2.haveIPrepicked = false then
    match cfg.picks[0]? with
    | none => Outcome.panicked
    | some name =>
      match champLookup cmap name with
      | some cid =>
        if orc cnt then
          Outcome.ok ({ st2 with haveIPrepicked := true },
            subs ++ [(⟨st2.actionId, cid, false⟩, true)])
        else
          Outcome.ok (st2, subs ++ [(⟨st2.actionId, cid, false⟩, false)])
      | none => Outcome.ok (st2, subs)
  else Outcome.ok (st2, subs)

/-- The FINALIZATION game-start block (main.rs lines 389-407): on a
successful telemetry response, unwrap gameTime (panicking when malformed)
and flip in_game and running when it is positive and in_game was false. -/
def finalStep (phase : String) (poll : Option PollData) (st3 : EngineState)
    (subs3 : List (Submission × Bool)) :
    Outcome (EngineState × List (Submission × Bool)) :=
  if phase = "FINALIZATION" then
    match poll with
    | none => Outcome.ok (st3, subs3)
    | some p =>
      if p.statusSuccess then
        match p.gameTime with
        | none => Outcome.panicked
        | some t =>
          if 0 < t ∧ st3.inGame = false then
            Outcome.ok ({ st3 with inGame := true, running := false }, subs3)
          else Outcome.ok (st3, subs3)
      else Outcome.ok (st3, subs3)
  else Outcome.ok (st3, subs3)

/-- Handling of one champ-select session event (main.rs lines 292-408):
unwrap localPlayerCellId and timer.phase, clear have_i_prepicked, scan
myTeam, process the actions array, then the PLANNING pre-pick block
and the FINALIZATION game-start block. -/
def processSession (cfg : Config) (cmap : List (String × Int))
    (raw : RawSession) (orc : Nat → Bool) (poll : Option PollData)
    (fuel : Nat) (st : EngineState) :
    Outcome (EngineState × List (Submission × Bool)) :=
  match raw.localPlayerCellId with
  | none => Outcome.panicked
  | some l =>
    match raw.timerPhase with
    | none => Outcome.panicked
    | some phase =>
      let st0 : EngineState := { st with haveIPrepicked := false }
      match raw.myTeam with
      | none => Outcome.panicked
      | some team =>
        match scanTeam l team st0.amIAssigned with
        | Outcome.panicked => Outcome.panicked
        | Outcome.hang => Outcome.hang
        | Outcome.ok assigned =>
          let st1 : EngineState := { st0 with amIAssigned := assigned }
          match raw.actions with
          | none => Outcome.panicked
          | some groups =>
            match processGroups cfg cmap phase l orc fuel groups st1 0 with
            | Outcome.panicked => Outcome.panicked
            | Outcome.hang => Outcome.hang
            | Outcome.ok (st2, cnt, subs) =>
              match planningStep cfg cmap phase orc cnt st2 subs with
              | Outcome.ok (st3, subs3) => finalStep phase poll st3 subs3
              | Outcome.panicked => Outcome.panicked
              | Outcome.hang => Outcome.hang

/-- One inbound websocket event (main.rs lines 281-411): a ready-check event,
a champ-select session event (carrying the transport oracle and the
telemetry poll outcome observed while handling it), or anything else. -/
inductive Event where
  | readyCheck (state playerResponse : Option String)
  | session (raw : RawSession) (orc : Nat → Bool) (poll : Option PollData)
  | other

/-- Dispatch of one event (the match on data.uri, main.rs line 281): only
session events touch the engine state; ready-check handling posts an
acceptance but mutates none of the engine locals. -/
def step (cfg : Config) (cmap : List (String × Int)) (e : Event) (fuel : Nat)
    (st : EngineState) : Outcome (EngineState × List (Submission × Bool)) :=
  match e with
  | Event.session raw orc poll => processSession cfg cmap raw orc poll fuel st
  | _ => Outcome.ok (st, [])

/-- The driving while-running loop (main.rs line 263) over a finite stream of
events: once running is false the remaining events are never observed. -/
def run (cfg : Config) (cmap : List (String × Int)) (fuel : Nat) :
    List Event → EngineState → Outcome (EngineState × List (Submission × Bool))
  | [], st => Outcome.ok (st, [])
  | e :: es, st =>
    if st.running then
      match step cfg cmap e fuel st with
      | Outcome.ok (st1, subs1) =>
        match run cfg cmap fuel es st1 with
        | Outcome.ok (st2, subs2) => Outcome.ok (st2, subs1 ++ subs2)
        | Outcome.panicked => Outcome.panicked
        | Outcome.hang => Outcome.hang
      | Outcome.panicked => Outcome.panicked
      | Outcome.hang => Outcome.hang
    else Outcome.ok (st, [])

/-- States the engine can actually be in: the initial state, and anything the
loop's guarded step produces from a reachable state. -/
inductive Reachable (cfg : Config) (cmap : List (String × Int)) :
    EngineState → Prop
  | init : Reachable cfg cmap initState
  | next (s s' : EngineState) (e : Event) (fuel : Nat)
      (subs : List (Submission × Bool)) :
      Reachable cfg cmap s → s.running = true →
      step cfg cmap e fuel s = Outcome.ok (s', subs) →
      Reachable cfg cmap s'

/-- Modelled from the spec: the interpreter's bannedChampions set
(spec section 4.1 step 3 — every action with kind Ban and completed true
contributes its championId).  No code under src computes such a set; it is
needed to state the banned-champion claims.  Absent fields degrade to
defaults per the spec's totality contract. -/
def bannedChampions (raw : RawSession) : List Int :=
  match raw.actions with
  | none => []
  | some groups =>
    (groups.map (fun g =>
      match g with
      | none => []
      | some acts =>
        acts.filterMap (fun a =>
          if a.type = some "ban" ∧ a.completed = some true then a.championId
          else none))).flatten

/-- Number of successful submissions in an event's submission log. -/
def succCount (subs : List (Submission × Bool)) : Nat :=
  subs.countP (fun x => x.2)

/-- Whether an action entry is an in-progress action of the local player. -/
def inProgLocal (l : Int) (a : RawAction) : Bool :=
  a.actorCellId == some l && a.isInProgress == some true

/-- In-progress local actions in one actions group. -/
def groupInProgCount (l : Int) (g : Option (List RawAction)) : Nat :=
  match g with
  | none => 0
  | some acts => acts.countP (inProgLocal l)

/-- In-progress local actions declared by a session snapshot. -/
def sessionInProgCount (raw : RawSession) : Nat :=
  match raw.localPlayerCellId, raw.actions with
  | some l, some groups => (groups.map (groupInProgCount l)).sum
  | _, _ => 0

/-- Example configuration: pick preference Ahri, ban preference X. -/
def exCfg : Config := ⟨["Ahri"], ["X"]⟩

/-- Example lookup table mapping Ahri to champion id 42. -/
def exCmap : List (String × Int) := [("Ahri", 42)]

/-- A completed ban action of another player (cell 5) that banned champion 42. -/
def exBanDone : RawAction := ⟨some 1, some 5, some "ban", some 42, some true, some false⟩

/-- The local player's in-progress pick action with action id 7. -/
def exMyPick : RawAction := ⟨some 7, some 0, some "pick", none, some false, some true⟩

/-- A BAN_PICK snapshot in which champion 42 is already banned and the local
player (cell 0) is on a pick turn. -/
def exS1 : RawSession :=
  ⟨some 0, some "BAN_PICK", some [], some [some [exBanDone, exMyPick]]⟩

/-- Example configuration for the double-action snapshot. -/
def exCfg5 : Config := ⟨["Y"], ["X"]⟩

/-- Lookup table for the double-action snapshot. -/
def exCmap5 : List (String × Int) := [("X", 10), ("Y", 20)]

/-- An in-progress local ban action with id 1. -/
def exBanInProg : RawAction := ⟨some 1, some 0, some "ban", none, none, some true⟩

/-- An in-progress local pick action with id 2. -/
def exPickInProg : RawAction := ⟨some 2, some 0, some "pick", none, none, some true⟩

/-- A BAN_PICK snapshot listing two simultaneously in-progress local actions. -/
def exS5 : RawSession :=
  ⟨some 0, some "BAN_PICK", some [], some [some [exBanInProg, exPickInProg]]⟩

/-- A PLANNING snapshot containing no actions at all. -/
def exSP0 : RawSession := ⟨some 0, some "PLANNING", some [], some []⟩

/-- A FINALIZATION snapshot with empty team and action arrays. -/
def exSF : RawSession := ⟨some 0, some "FINALIZATION", some [], some []⟩

/-- A scan trace respects the claimed fail-then-advance discipline when every
attempt that follows a failed attempt targets the next cursor index. -/
def failAdvancesB : List (Nat × Submission × Bool) → Bool
  | x :: y :: rest =>
    (x.2.2 || y.1 == x.1 + 1) && failAdvancesB (y :: rest)
  | _ => true

/-- Claim C4 (code_bug evidence): interpreting a champ-select snapshot is not
total.  A session event whose data lacks localPlayerCellId, or lacks
timer.phase, makes the handler unwrap a missing field and panic, terminating
the process, instead of degrading to defaults or skipping the snapshot. -/
theorem c4_malformed_session_panics :
    processSession exCfg exCmap ⟨none, none, none, none⟩ (fun _ => true) none 5
        initState = Outcome.panicked ∧
    processSession exCfg exCmap ⟨some 0, none, some [], some []⟩ (fun _ => true)
        none 5 initState = Outcome.panicked :=
  ⟨rfl, rfl⟩

/-- Claim C1 counterexample: in exS1 champion 42 is already banned (it is in
the spec-modelled bannedChampions set) and the pick preference Ahri maps to
42, yet the pick-turn resolution emits a submission intent for champion 42
and leaves the pick cursor at 0 instead of skipping the entry. -/
theorem c1_counterexample :
    bannedChampions exS1 = [42] ∧
    champLookup exCmap "Ahri" = some 42 ∧
    processSession exCfg exCmap exS1 (fun _ => true) none 5 initState =
      Outcome.ok (⟨0, 0, false, false, false, false, false, 7, true⟩,
        [(⟨7, 42, true⟩, true)]) :=
  ⟨rfl, rfl, rfl⟩

/-- Claim C1 (amended): the pick scan consults only the lookup table — a name
absent from it is skipped without a submission, advancing the cursor modulo
the list length, while a name present in it is attempted immediately,
irrespective of any banned-champion information (the scan takes none). -/
theorem c1_pick_no_banned_check (picks : List String)
    (cmap : List (String × Int)) (aid : Int) (orc : Nat → Bool)
    (fuel a n : Nat) (name : String) (hn : picks[n]? = some name) :
    (champLookup cmap name = none →
      pickScan picks cmap aid orc (fuel + 1) a n =
        pickScan picks cmap aid orc fuel a ((n + 1) % picks.length)) ∧
    (∀ cid : Int, champLookup cmap name = some cid →
      (pickScan picks cmap aid orc (fuel + 1) a n).1.head? =
        some (n, ⟨aid, cid, true⟩, orc a)) := by
  constructor
  · intro hnone
    simp [pickScan, hn, hnone]
  · intro cid hcid
    cases horc : orc a <;> simp [pickScan, hn, hcid, horc]

/-- Claim C1 amended witness: with picks = [A, B] and only B in the lookup
table, the scan skips A by advancing the cursor, and attempts B. -/
theorem c1_pick_no_banned_check_witness :
    (pickScan ["A", "B"] [("B", 3)] 7 (fun _ => true) 4 0 0 =
      pickScan ["A", "B"] [("B", 3)] 7 (fun _ => true) 3 0 1) ∧
    (pickScan ["A", "B"] [("B", 3)] 7 (fun _ => true) 4 0 1).1.head? =
      some (1, ⟨7, 3, true⟩, true) :=
  ⟨(c1_pick_no_banned_check ["A", "B"] [("B", 3)] 7 (fun _ => true) 3 0 0 "A"
      rfl).1 rfl,
   (c1_pick_no_banned_check ["A", "B"] [("B", 3)] 7 (fun _ => true) 3 0 1 "B"
      rfl).2 3 rfl⟩

/-- Claim C2 counterexample: with a one-entry ban list whose PATCH fails on
the first attempt and succeeds on the second, the scan issues both attempts
at cursor index 0 — a failed submission is re-attempted at the same entry,
the cursor is not advanced to the next entry. -/
theorem c2_counterexample :
    banScan ["Ahri"] [("Ahri", 42)] 7 (fun a => decide (0 < a)) 3 0 0 =
      ([(0, ⟨7, 42, true⟩, false), (0, ⟨7, 42, true⟩, true)],
        ScanRes.done 1) ∧
    failAdvancesB
        (banScan ["Ahri"] [("Ahri", 42)] 7 (fun a => decide (0 < a)) 3 0 0).1 =
      false :=
  ⟨rfl, rfl⟩

/-- Claim C2 (amended): when the submission attempt for the current cursor
entry fails, the cursor is not advanced — the immediately following attempt
(in both the ban and the pick scan) targets the same entry at the same
cursor index; the cursor advances only for entries absent from the lookup. -/
theorem c2_fail_retries_same_entry (bans picks : List String)
    (cmap : List (String × Int)) (aid : Int) (orc : Nat → Bool)
    (fuel a n : Nat) (name : String) (cid : Int) (horc : orc a = false) :
    (bans[n]? = some name → champLookup cmap name = some cid →
      (banScan bans cmap aid orc (fuel + 1 + 1) a n).1[1]? =
        some (n, ⟨aid, cid, true⟩, orc (a + 1))) ∧
    (picks[n]? = some name → champLookup cmap name = some cid →
      (pickScan picks cmap aid orc (fuel + 1 + 1) a n).1[1]? =
        some (n, ⟨aid, cid, true⟩, orc (a + 1))) := by
  constructor <;> intro hn hl
  · cases h2 : orc (a + 1) <;> simp [banScan, hn, hl, horc, h2]
  · cases h2 : orc (a + 1) <;> simp [pickScan, hn, hl, horc, h2]

/-- Claim C2 amended witness: the failed first attempt at Ahri is followed by
a second attempt at the same cursor index 0, in both scans. -/
theorem c2_fail_retries_same_entry_witness :
    (banScan ["Ahri"] [("Ahri", 42)] 7 (fun a => decide (0 < a)) 3 0 0).1[1]? =
      some (0, ⟨7, 42, true⟩, true) ∧
    (pickScan ["Ahri"] [("Ahri", 42)] 7 (fun a => decide (0 < a)) 3 0 0).1[1]? =
      some (0, ⟨7, 42, true⟩, true) := by
  have h := c2_fail_retries_same_entry ["Ahri"] ["Ahri"] [("Ahri", 42)] 7
    (fun a => decide (0 < a)) 1 0 0 "Ahri" 42 rfl
  exact ⟨h.1 rfl rfl, h.2 rfl rfl⟩

/-- Claim C3 counterexample: a ban list of length 2 with no entry in the
lookup table is still being scanned after 10 loop iterations (five full
passes), and a ban list of length 1 whose submissions always fail has issued
10 PATCHes for the same entry and is still scanning — the fallback scan does
not stop after one full pass with no intent; it never stops. -/
theorem c3_counterexample :
    banScan ["A", "B"] [] 7 (fun _ => true) 10 0 0 =
      ([], ScanRes.fuelOut 0) ∧
    banScan ["A"] [("A", 1)] 7 (fun _ => false) 10 0 0 =
      (List.replicate 10 (0, ⟨7, 1, true⟩, false), ScanRes.fuelOut 0) ∧
    pickScan ["A", "B"] [] 7 (fun _ => true) 10 0 0 =
      ([], ScanRes.fuelOut 0) :=
  ⟨rfl, rfl, rfl⟩

/-- Arithmetic helper: stepping the cursor once modulo L commutes with adding
the remaining fuel. -/
theorem cursor_mod_shift (L n f : Nat) :
    ((n + 1) % L + f) % L = (n + (f + 1)) % L := by
  conv_rhs => rw [show n + (f + 1) = n + 1 + f by omega]
  rw [Nat.add_mod (n + 1) f L, Nat.add_mod ((n + 1) % L) f L,
    Nat.mod_mod_of_dvd (n + 1) dvd_rfl]

/-- The ban scan over a list none of whose entries is in the lookup table
consumes all fuel, issues no submission, and leaves the cursor cycling
modulo the list length. -/
theorem banScan_unavail (bans : List String) (cmap : List (String × Int))
    (aid : Int) (orc : Nat → Bool)
    (hall : ∀ nm ∈ bans, champLookup cmap nm = none) :
    ∀ fuel a n, n < bans.length →
      banScan bans cmap aid orc fuel a n =
        ([], ScanRes.fuelOut ((n + fuel) % bans.length)) := by
  intro fuel
  induction fuel with
  | zero =>
    intro a n hlt
    simp [banScan, Nat.mod_eq_of_lt hlt]
  | succ f ih =>
    intro a n hlt
    cases hg : bans[n]? with
    | none =>
      rw [List.getElem?_eq_none_iff] at hg
      omega
    | some nm =>
      have hmem : nm ∈ bans := List.getElem?_mem hg
      rw [show f + 1 = f + 1 from rfl]
      simp only [banScan, hg, hall nm hmem]
      rw [ih a ((n + 1) % bans.length) (Nat.mod_lt _ (by omega))]
      rw [cursor_mod_shift]

/-- The pick scan over a list none of whose entries is in the lookup table
consumes all fuel, issues no submission, and leaves the cursor cycling
modulo the list length. -/
theorem pickScan_unavail (picks : List String) (cmap : List (String × Int))
    (aid : Int) (orc : Nat → Bool)
    (hall : ∀ nm ∈ picks, champLookup cmap nm = none) :
    ∀ fuel a n, n < picks.length →
      pickScan picks cmap aid orc fuel a n =
        ([], ScanRes.fuelOut ((n + fuel) % picks.length)) := by
  intro fuel
  induction fuel with
  | zero =>
    intro a n hlt
    simp [pickScan, Nat.mod_eq_of_lt hlt]
  | succ f ih =>
    intro a n hlt
    cases hg : picks[n]? with
    | none =>
      rw [List.getElem?_eq_none_iff] at hg
      omega
    | some nm =>
      have hmem : nm ∈ picks := List.getElem?_mem hg
      simp only [pickScan, hg, hall nm hmem]
      rw [ih a ((n + 1) % picks.length) (Nat.mod_lt _ (by omega))]
      rw [cursor_mod_shift]

/-- The ban scan on an available entry whose submissions always fail keeps
re-attempting that same entry, once per unit of fuel, and never exits. -/
theorem banScan_allfail (bans : List String) (cmap : List (String × Int))
    (aid : Int) (orc : Nat → Bool) (name : String) (cid : Int)
    (horc : ∀ k, orc k = false) :
    ∀ fuel a n, bans[n]? = some name → champLookup cmap name = some cid →
      banScan bans cmap aid orc fuel a n =
        (List.replicate fuel (n, ⟨aid, cid, true⟩, false),
          ScanRes.fuelOut n) := by
  intro fuel
  induction fuel with
  | zero =>
    intro a n hg hl
    simp [banScan]
  | succ f ih =>
    intro a n hg hl
    simp only [banScan, hg, hl, horc a]
    rw [ih (a + 1) n hg hl]
    simp [List.replicate_succ]

/-- The pick scan on an available entry whose submissions always fail keeps
re-attempting that same entry, once per unit of fuel, and never exits. -/
theorem pickScan_allfail (picks : List String) (cmap : List (String × Int))
    (aid : Int) (orc : Nat → Bool) (name : String) (cid : Int)
    (horc : ∀ k, orc k = false) :
    ∀ fuel a n, picks[n]? = some name → champLookup cmap name = some cid →
      pickScan picks cmap aid orc fuel a n =
        (List.replicate fuel (n, ⟨aid, cid, true⟩, false),
          ScanRes.fuelOut n) := by
  intro fuel
  induction fuel with
  | zero =>
    intro a n hg hl
    simp [pickScan]
  | succ f ih =>
    intro a n hg hl
    simp only [pickScan, hg, hl, horc a]
    rw [ih (a + 1) n hg hl]
    simp [List.replicate_succ]

/-- Claim C3 (amended): when every entry of the preference list fails, the
fallback scan does not terminate at all.  If no entry is in the lookup table
the cursor cycles modulo the list length (wrapping through 0) with no
submission, for every fuel bound; if an entry is in the table but every
submission is rejected, the same entry is re-attempted forever.  The scan
ends only on a successful submission, so no cursor-wrapped idle cycle is
ever reached. -/
theorem c3_exhausted_scan_never_stops (bans picks : List String)
    (cmap : List (String × Int)) (aid : Int) (orc : Nat → Bool)
    (name : String) (cid : Int) :
    ((∀ nm ∈ bans, champLookup cmap nm = none) → ∀ fuel a n,
      n < bans.length →
      banScan bans cmap aid orc fuel a n =
        ([], ScanRes.fuelOut ((n + fuel) % bans.length))) ∧
    ((∀ nm ∈ picks, champLookup cmap nm = none) → ∀ fuel a n,
      n < picks.length →
      pickScan picks cmap aid orc fuel a n =
        ([], ScanRes.fuelOut ((n + fuel) % picks.length))) ∧
    ((∀ k, orc k = false) → ∀ fuel a n, bans[n]? = some name →
      champLookup cmap name = some cid →
      banScan bans cmap aid orc fuel a n =
        (List.replicate fuel (n, ⟨aid, cid, true⟩, false),
          ScanRes.fuelOut n)) ∧
    ((∀ k, orc k = false) → ∀ fuel a n, picks[n]? = some name →
      champLookup cmap name = some cid →
      pickScan picks cmap aid orc fuel a n =
        (List.replicate fuel (n, ⟨aid, cid, true⟩, false),
          ScanRes.fuelOut n)) :=
  ⟨fun hall => banScan_unavail bans cmap aid orc hall,
   fun hall => pickScan_unavail picks cmap aid orc hall,
   fun horc => banScan_allfail bans cmap aid orc name cid horc,
   fun horc => pickScan_allfail picks cmap aid orc name cid horc⟩

/-- Claim C3 amended witness: concrete never-terminating scans — an
all-unavailable two-entry list after 7 iterations sits at cursor (1 + 7) % 2
with nothing submitted, and an always-rejected entry has been re-attempted
5 times. -/
theorem c3_exhausted_scan_never_stops_witness :
    banScan ["A", "B"] [] 9 (fun _ => true) 7 0 1 =
      ([], ScanRes.fuelOut ((1 + 7) % 2)) ∧
    pickScan ["A", "B"] [] 9 (fun _ => true) 7 0 1 =
      ([], ScanRes.fuelOut ((1 + 7) % 2)) ∧
    banScan ["C"] [("C", 8)] 9 (fun _ => false) 5 0 0 =
      (List.replicate 5 (0, ⟨9, 8, true⟩, false), ScanRes.fuelOut 0) ∧
    pickScan ["C"] [("C", 8)] 9 (fun _ => false) 5 0 0 =
      (List.replicate 5 (0, ⟨9, 8, true⟩, false), ScanRes.fuelOut 0) := by
  have h := c3_exhausted_scan_never_stops ["A", "B"] ["A", "B"] [] 9
    (fun _ => true) "C" 8
  have h2 := c3_exhausted_scan_never_stops ["C"] ["C"] [("C", 8)] 9
    (fun _ => false) "C" 8
  exact ⟨h.1 (by decide) 7 0 1 (by decide),
    h.2.1 (by decide) 7 0 1 (by decide),
    h2.2.2.1 (fun _ => rfl) 5 0 0 rfl rfl,
    h2.2.2.2 (fun _ => rfl) 5 0 0 rfl rfl⟩

/-- Claim C10: after a successful ban submission the ban cursor advances one
past the entry that succeeded, while after a successful pick submission the
pick cursor stays at the entry that succeeded; all other resulting state
fields agree with the snapshot processing (prepick flag cleared, action id
recorded, turn flag cleared). -/
theorem c10_cursor_asymmetry (cfg : Config) (cmap : List (String × Int))
    (st : EngineState) (l k cidB cidP : Int) (nmB nmP : String)
    (orc : Nat → Bool) (fuel : Nat)
    (hb : cfg.bans[st.banNumber]? = some nmB)
    (hlb : champLookup cmap nmB = some cidB)
    (hp : cfg.picks[st.pickNumber]? = some nmP)
    (hlp : champLookup cmap nmP = some cidP)
    (horc : orc 0 = true) :
    (processSession cfg cmap
        ⟨some l, some "BAN_PICK", some [],
          some [some [⟨some k, some l, some "ban", none, none, some true⟩]]⟩
        orc none (fuel + 1) st =
      Outcome.ok ({ st with
          haveIPrepicked := false
          actionId := k
          amIBanning := false
          banNumber := st.banNumber + 1 },
        [(⟨k, cidB, true⟩, true)])) ∧
    (processSession cfg cmap
        ⟨some l, some "BAN_PICK", some [],
          some [some [⟨some k, some l, some "pick", none, none, some true⟩]]⟩
        orc none (fuel + 1) st =
      Outcome.ok ({ st with
          haveIPrepicked := false
          actionId := k
          amIPicking := false },
        [(⟨k, cidP, true⟩, true)])) := by
  cases st
  constructor <;>
    simp_all [processSession, processGroups, processActionsList, processAction,
      scanTeam, banScan, pickScan, planningStep, finalStep]

/-- Claim C10 witness: with ban list [Zed] and pick list [Ahri], a successful
ban leaves the ban cursor at 1 while a successful pick leaves the pick
cursor at 0. -/
theorem c10_cursor_asymmetry_witness :
    (processSession ⟨["Ahri"], ["Zed"]⟩ [("Ahri", 42), ("Zed", 5)]
        ⟨some 0, some "BAN_PICK", some [],
          some [some [⟨some 3, some 0, some "ban", none, none, some true⟩]]⟩
        (fun _ => true) none 5 initState =
      Outcome.ok (⟨0, 1, false, false, false, false, false, 3, true⟩,
        [(⟨3, 5, true⟩, true)])) ∧
    (processSession ⟨["Ahri"], ["Zed"]⟩ [("Ahri", 42), ("Zed", 5)]
        ⟨some 0, some "BAN_PICK", some [],
          some [some [⟨some 4, some 0, some "pick", none, none, some true⟩]]⟩
        (fun _ => true) none 5 initState =
      Outcome.ok (⟨0, 0, false, false, false, false, false, 4, true⟩,
        [(⟨4, 42, true⟩, true)])) := by
  have hb := (c10_cursor_asymmetry ⟨["Ahri"], ["Zed"]⟩
    [("Ahri", 42), ("Zed", 5)] initState 0 3 5 42 "Zed" "Ahri"
    (fun _ => true) 4 rfl rfl rfl rfl rfl).1
  have hp := (c10_cursor_asymmetry ⟨["Ahri"], ["Zed"]⟩
    [("Ahri", 42), ("Zed", 5)] initState 0 4 5 42 "Zed" "Ahri"
    (fun _ => true) 4 rfl rfl rfl rfl rfl).2
  exact ⟨hb, hp⟩

/-- Processing one action entry never modifies the prepick, inGame or
running fields: it only touches actionId, the turn flags and the cursors. -/
theorem processAction_preserves (cfg : Config) (cmap : List (String × Int))
    (phase : String) (l : Int) (orc : Nat → Bool) (fuel : Nat)
    (a : RawAction) (st : EngineState) (cnt : Nat) (st' : EngineState)
    (cnt' : Nat) (subs : List (Submission × Bool))
    (h : processAction cfg cmap phase l orc fuel a st cnt =
      Outcome.ok (st', cnt', subs)) :
    st'.haveIPrepicked = st.haveIPrepicked ∧ st'.inGame = st.inGame ∧
      st'.running = st.running := by
  unfold processAction at h
  by_cases hact : a.actorCellId = some l
  · rw [if_pos hact] at h
    cases hip : a.isInProgress with
    | none =>
      simp only [hip] at h
      exact Outcome.noConfusion h
    | some ip =>
      simp only [hip] at h
      cases ip with
      | false =>
        simp only [Bool.false_eq_true, if_false, Outcome.ok.injEq,
          Prod.mk.injEq] at h
        obtain ⟨rfl, -, -⟩ := h
        exact ⟨rfl, rfl, rfl⟩
      | true =>
        simp only [if_true] at h
        cases hty : a.type with
        | none =>
          simp only [hty] at h
          exact Outcome.noConfusion h
        | some ty =>
          simp only [hty] at h
          cases hid : a.id with
          | none =>
            simp only [hid] at h
            exact Outcome.noConfusion h
          | some k =>
            simp only [hid] at h
            by_cases hty1 : ty = "ban"
            · subst hty1
              simp at h
              by_cases hph : phase = "BAN_PICK"
              · rw [if_pos hph] at h
                cases hbs : (banScan cfg.bans cmap k orc fuel cnt
                    st.banNumber).2 with
                | done n2 =>
                  simp only [hbs, Outcome.ok.injEq, Prod.mk.injEq] at h
                  obtain ⟨rfl, -, -⟩ := h
                  exact ⟨rfl, rfl, rfl⟩
                | fuelOut c =>
                  simp only [hbs] at h
                  exact Outcome.noConfusion h
                | panicked =>
                  simp only [hbs] at h
                  exact Outcome.noConfusion h
              · rw [if_neg hph] at h
                simp only [Outcome.ok.injEq, Prod.mk.injEq] at h
                obtain ⟨rfl, -, -⟩ := h
                exact ⟨rfl, rfl, rfl⟩
            · by_cases hty2 : ty = "pick"
              · subst hty2
                simp at h
                by_cases hph : phase = "BAN_PICK"
                · rw [if_pos hph] at h
                  cases hbs : (pickScan cfg.picks cmap k orc fuel cnt
                      st.pickNumber).2 with
                  | done n2 =>
                    simp only [hbs, Outcome.ok.injEq, Prod.mk.injEq] at h
                    obtain ⟨rfl, -, -⟩ := h
                    exact ⟨rfl, rfl, rfl⟩
                  | fuelOut c =>
                    simp only [hbs] at h
                    exact Outcome.noConfusion h
                  | panicked =>
                    simp only [hbs] at h
                    exact Outcome.noConfusion h
                · rw [if_neg hph] at h
                  simp only [Outcome.ok.injEq, Prod.mk.injEq] at h
                  obtain ⟨rfl, -, -⟩ := h
                  exact ⟨rfl, rfl, rfl⟩
              · simp [hty1, hty2] at h
                obtain ⟨rfl, -, -⟩ := h
                exact ⟨rfl, rfl, rfl⟩
  · rw [if_neg hact] at h
    simp only [Outcome.ok.injEq, Prod.mk.injEq] at h
    obtain ⟨rfl, -, -⟩ := h
    exact ⟨rfl, rfl, rfl⟩

/-- The inner action loop preserves the prepick, inGame and running fields. -/
theorem processActionsList_preserves (cfg : Config)
    (cmap : List (String × Int)) (phase : String) (l : Int)
    (orc : Nat → Bool) (fuel : Nat) :
    ∀ (acts : List RawAction) (st : EngineState) (cnt : Nat)
      (st' : EngineState) (cnt' : Nat) (subs : List (Submission × Bool)),
      processActionsList cfg cmap phase l orc fuel acts st cnt =
        Outcome.ok (st', cnt', subs) →
      st'.haveIPrepicked = st.haveIPrepicked ∧ st'.inGame = st.inGame ∧
        st'.running = st.running := by
  intro acts
  induction acts with
  | nil =>
    intro st cnt st' cnt' subs h
    simp only [processActionsList, Outcome.ok.injEq, Prod.mk.injEq] at h
    obtain ⟨rfl, -, -⟩ := h
    exact ⟨rfl, rfl, rfl⟩
  | cons a rest ih =>
    intro st cnt st' cnt' subs h
    simp only [processActionsList] at h
    cases hpa : processAction cfg cmap phase l orc fuel a st cnt with
    | panicked =>
      simp only [hpa] at h
      exact Outcome.noConfusion h
    | hang =>
      simp only [hpa] at h
      exact Outcome.noConfusion h
    | ok p =>
      obtain ⟨st1, cnt1, subs1⟩ := p
      simp only [hpa] at h
      cases hrest : processActionsList cfg cmap phase l orc fuel rest st1 cnt1
        with
      | panicked =>
        simp only [hrest] at h
        exact Outcome.noConfusion h
      | hang =>
        simp only [hrest] at h
        exact Outcome.noConfusion h
      | ok p2 =>
        obtain ⟨st2, cnt2, subs2⟩ := p2
        simp only [hrest, Outcome.ok.injEq, Prod.mk.injEq] at h
        obtain ⟨rfl, -, -⟩ := h
        have h1 := processAction_preserves cfg cmap phase l orc fuel a st cnt
          st1 cnt1 subs1 hpa
        have h2 := ih st1 cnt1 st2 cnt2 subs2 hrest
        exact ⟨h2.1.trans h1.1, h2.2.1.trans h1.2.1, h2.2.2.trans h1.2.2⟩

/-- The outer action-group loop preserves the prepick, inGame and running
fields. -/
theorem processGroups_preserves (cfg : Config) (cmap : List (String × Int))
    (phase : String) (l : Int) (orc : Nat → Bool) (fuel : Nat) :
    ∀ (groups : List (Option (List RawAction))) (st : EngineState) (cnt : Nat)
      (st' : EngineState) (cnt' : Nat) (subs : List (Submission × Bool)),
      processGroups cfg cmap phase l orc fuel groups st cnt =
        Outcome.ok (st', cnt', subs) →
      st'.haveIPrepicked = st.haveIPrepicked ∧ st'.inGame = st.inGame ∧
        st'.running = st.running := by
  intro groups
  induction groups with
  | nil =>
    intro st cnt st' cnt' subs h
    simp only [processGroups, Outcome.ok.injEq, Prod.mk.injEq] at h
    obtain ⟨rfl, -, -⟩ := h
    exact ⟨rfl, rfl, rfl⟩
  | cons g rest ih =>
    intro st cnt st' cnt' subs h
    cases g with
    | none =>
      simp only [processGroups] at h
      exact Outcome.noConfusion h
    | some acts =>
      simp only [processGroups] at h
      cases hal : processActionsList cfg cmap phase l orc fuel acts st cnt with
      | panicked =>
        simp only [hal] at h
        exact Outcome.noConfusion h
      | hang =>
        simp only [hal] at h
        exact Outcome.noConfusion h
      | ok p =>
        obtain ⟨st1, cnt1, subs1⟩ := p
        simp only [hal] at h
        cases hrest : processGroups cfg cmap phase l orc fuel rest st1 cnt1 with
        | panicked =>
          simp only [hrest] at h
          exact Outcome.noConfusion h
        | hang =>
          simp only [hrest] at h
          exact Outcome.noConfusion h
        | ok p2 =>
          obtain ⟨st2, cnt2, subs2⟩ := p2
          simp only [hrest, Outcome.ok.injEq, Prod.mk.injEq] at h
          obtain ⟨rfl, -, -⟩ := h
          have h1 := processActionsList_preserves cfg cmap phase l orc fuel
            acts st cnt st1 cnt1 subs1 hal
          have h2 := ih st1 cnt1 st2 cnt2 subs2 hrest
          exact ⟨h2.1.trans h1.1, h2.2.1.trans h1.2.1, h2.2.2.trans h1.2.2⟩

/-- Inversion of the planning block: it either passes the state and log
through, or (in PLANNING with the flag clear) appends exactly one pre-pick
attempt, setting the flag just when that attempt succeeded. -/
theorem planningStep_inv (cfg : Config) (cmap : List (String × Int))
    (phase : String) (orc : Nat → Bool) (cnt : Nat) (st2 : EngineState)
    (subs : List (Submission × Bool)) (st3 : EngineState)
    (subs3 : List (Submission × Bool))
    (h : planningStep cfg cmap phase orc cnt st2 subs =
      Outcome.ok (st3, subs3)) :
    (st3 = st2 ∧ subs3 = subs) ∨
      (∃ cid, phase = "PLANNING" ∧ st2.haveIPrepicked = false ∧
        ((st3 = { st2 with haveIPrepicked := true } ∧
            subs3 = subs ++ [(⟨st2.actionId, cid, false⟩, true)]) ∨
          (st3 = st2 ∧
            subs3 = subs ++ [(⟨st2.actionId, cid, false⟩, false)]))) := by
  unfold planningStep at h
  by_cases hc : phase = "PLANNING" ∧ st2.haveIPrepicked = false
  · rw [if_pos hc] at h
    cases hp0 : cfg.picks[0]? with
    | none =>
      simp only [hp0] at h
      exact Outcome.noConfusion h
    | some name =>
      simp only [hp0] at h
      cases hcl : champLookup cmap name with
      | none =>
        simp only [hcl, Outcome.ok.injEq, Prod.mk.injEq] at h
        exact Or.inl ⟨h.1.symm, h.2.symm⟩
      | some cid =>
        simp only [hcl] at h
        by_cases ho : orc cnt
        · rw [if_pos ho] at h
          simp only [Outcome.ok.injEq, Prod.mk.injEq] at h
          exact Or.inr ⟨cid, hc.1, hc.2, Or.inl ⟨h.1.symm, h.2.symm⟩⟩
        · rw [if_neg ho] at h
          simp only [Outcome.ok.injEq, Prod.mk.injEq] at h
          exact Or.inr ⟨cid, hc.1, hc.2, Or.inr ⟨h.1.symm, h.2.symm⟩⟩
  · rw [if_neg hc] at h
    simp only [Outcome.ok.injEq, Prod.mk.injEq] at h
    exact Or.inl ⟨h.1.symm, h.2.symm⟩

/-- Inversion of the finalization block: the submission log passes through
unchanged, and the state is either untouched or has inGame set with running
cleared. -/
theorem finalStep_inv (phase : String) (poll : Option PollData)
    (st3 : EngineState) (subs3 : List (Submission × Bool))
    (q : EngineState × List (Submission × Bool))
    (h : finalStep phase poll st3 subs3 = Outcome.ok q) :
    q.2 = subs3 ∧ (q.1 = st3 ∨
      q.1 = { st3 with inGame := true, running := false }) := by
  unfold finalStep at h
  by_cases hf : phase = "FINALIZATION"
  · rw [if_pos hf] at h
    cases poll with
    | none =>
      simp only [Outcome.ok.injEq] at h
      exact ⟨congrArg Prod.snd h.symm, Or.inl (congrArg Prod.fst h.symm)⟩
    | some p =>
      cases hps : p.statusSuccess with
      | false =>
        simp only [hps, Bool.false_eq_true, if_false, Outcome.ok.injEq] at h
        exact ⟨congrArg Prod.snd h.symm, Or.inl (congrArg Prod.fst h.symm)⟩
      | true =>
        simp only [hps, if_true] at h
        cases hgt : p.gameTime with
        | none =>
          simp only [hgt] at h
          exact Outcome.noConfusion h
        | some t =>
          simp only [hgt] at h
          by_cases hin : 0 < t ∧ st3.inGame = false
          · rw [if_pos hin] at h
            simp only [Outcome.ok.injEq] at h
            exact ⟨congrArg Prod.snd h.symm,
              Or.inr (congrArg Prod.fst h.symm)⟩
          · rw [if_neg hin] at h
            simp only [Outcome.ok.injEq] at h
            exact ⟨congrArg Prod.snd h.symm,
              Or.inl (congrArg Prod.fst h.symm)⟩
  · rw [if_neg hf] at h
    simp only [Outcome.ok.injEq] at h
    exact ⟨congrArg Prod.snd h.symm, Or.inl (congrArg Prod.fst h.symm)⟩

/-- Inversion of session processing: a non-panicking, non-hanging run of the
handler decomposes into its stages. -/
theorem processSession_inv (cfg : Config) (cmap : List (String × Int))
    (raw : RawSession) (orc : Nat → Bool) (poll : Option PollData)
    (fuel : Nat) (st : EngineState)
    (q : EngineState × List (Submission × Bool))
    (h : processSession cfg cmap raw orc poll fuel st = Outcome.ok q) :
    ∃ l phase team groups assigned st2 cnt subs st3 subs3,
      raw.localPlayerCellId = some l ∧
      raw.timerPhase = some phase ∧
      raw.myTeam = some team ∧
      raw.actions = some groups ∧
      scanTeam l team st.amIAssigned = Outcome.ok assigned ∧
      processGroups cfg cmap phase l orc fuel groups
          { st with haveIPrepicked := false, amIAssigned := assigned } 0 =
        Outcome.ok (st2, cnt, subs) ∧
      planningStep cfg cmap phase orc cnt st2 subs =
        Outcome.ok (st3, subs3) ∧
      finalStep phase poll st3 subs3 = Outcome.ok q := by
  obtain ⟨lc, ph, tm, ac⟩ := raw
  cases lc with
  | none => simp [processSession] at h
  | some l =>
  cases ph with
  | none => simp [processSession] at h
  | some phase =>
  cases tm with
  | none => simp [processSession] at h
  | some team =>
  cases ac with
  | none =>
    cases hsc : scanTeam l team st.amIAssigned <;>
      simp [processSession, hsc] at h
  | some groups =>
  cases hsc : scanTeam l team st.amIAssigned with
  | panicked => simp [processSession, hsc] at h
  | hang => simp [processSession, hsc] at h
  | ok assigned =>
  cases hpg : processGroups cfg cmap phase l orc fuel groups
      { st with haveIPrepicked := false, amIAssigned := assigned } 0 with
  | panicked => simp [processSession, hsc, hpg] at h
  | hang => simp [processSession, hsc, hpg] at h
  | ok p =>
  obtain ⟨st2, cnt, subs⟩ := p
  cases hpl : planningStep cfg cmap phase orc cnt st2 subs with
  | panicked => simp [processSession, hsc, hpg, hpl] at h
  | hang => simp [processSession, hsc, hpg, hpl] at h
  | ok pq =>
  obtain ⟨st3, subs3⟩ := pq
  refine ⟨l, phase, team, groups, assigned, st2, cnt, subs, st3, subs3,
    rfl, rfl, rfl, rfl, hsc, hpg, hpl, ?_⟩
  simp only [processSession, hsc, hpg, hpl] at h
  exact h

/-- A FINALIZATION snapshot with a successful telemetry response reporting
game time t, processed from a state with inGame clear, sets inGame and stops
the loop exactly when 0 < t, and submits nothing. -/
theorem finalization_game_start (cfg : Config) (cmap : List (String × Int))
    (st : EngineState) (l : Int) (orc : Nat → Bool) (fuel : Nat) (t : ℚ)
    (hng : st.inGame = false) :
    processSession cfg cmap ⟨some l, some "FINALIZATION", some [], some []⟩
        orc (some ⟨true, some t⟩) fuel st =
      Outcome.ok
        (if 0 < t then
          { st with haveIPrepicked := false, inGame := true, running := false }
         else { st with haveIPrepicked := false }, []) := by
  cases st
  subst hng
  by_cases ht : 0 < t <;>
    simp [processSession, processGroups, scanTeam, planningStep, finalStep, ht]

/-- One successfully processed session event either leaves inGame and
running untouched or sets inGame true and running false together. -/
theorem processSession_inGame_running (cfg : Config)
    (cmap : List (String × Int)) (raw : RawSession) (orc : Nat → Bool)
    (poll : Option PollData) (fuel : Nat) (st : EngineState)
    (q : EngineState × List (Submission × Bool))
    (h : processSession cfg cmap raw orc poll fuel st = Outcome.ok q) :
    (q.1.inGame = st.inGame ∧ q.1.running = st.running) ∨
      (q.1.inGame = true ∧ q.1.running = false) := by
  obtain ⟨l, phase, team, groups, assigned, st2, cnt, subs, st3, subs3,
    hlc, hph, htm, hac, hsc, hpg, hpl, hf⟩ :=
    processSession_inv cfg cmap raw orc poll fuel st q h
  have h2 := processGroups_preserves cfg cmap phase l orc fuel groups
    { st with haveIPrepicked := false, amIAssigned := assigned } 0 st2 cnt
    subs hpg
  have h3 : st3.inGame = st2.inGame ∧ st3.running = st2.running := by
    rcases planningStep_inv cfg cmap phase orc cnt st2 subs st3 subs3 hpl with
      ⟨rfl, -⟩ | ⟨cid, -, -, ⟨rfl, -⟩ | ⟨rfl, -⟩⟩ <;> exact ⟨rfl, rfl⟩
  have h4 := finalStep_inv phase poll st3 subs3 q hf
  rcases h4.2 with hq | hq
  · left
    rw [hq]
    exact ⟨h3.1.trans h2.2.1, h3.2.trans h2.2.2⟩
  · right
    rw [hq]
    exact ⟨rfl, rfl⟩

/-- In any reachable engine state, inGame implies the loop flag is cleared:
the two are only ever set together, once. -/
theorem reachable_inGame_not_running (cfg : Config)
    (cmap : List (String × Int)) (s : EngineState)
    (h : Reachable cfg cmap s) : s.inGame = true → s.running = false := by
  induction h with
  | init => intro hg; exact absurd hg (by decide)
  | next s s' e fuel subs hr hrun hstep ih =>
    intro hg
    cases e with
    | session raw orc poll =>
      have hd := processSession_inGame_running cfg cmap raw orc poll fuel s
        (s', subs) hstep
      rcases hd with ⟨h1, h2⟩ | ⟨h1, h2⟩
      · rw [h2]
        exact ih (h1.symm.trans hg)
      · exact h2
    | readyCheck s1 s2 =>
      simp only [step, Outcome.ok.injEq, Prod.mk.injEq] at hstep
      obtain ⟨rfl, -⟩ := hstep
      exact ih hg
    | other =>
      simp only [step, Outcome.ok.injEq, Prod.mk.injEq] at hstep
      obtain ⟨rfl, -⟩ := hstep
      exact ih hg

/-- Claim C6: once inGame has become true in a reachable engine state, the
loop observes no further event: running the loop from there on any event
sequence leaves the state unchanged (in particular inGame is never reset)
and produces no submission intent — inGame is a one-shot terminal state. -/
theorem c6_in_game_terminal (cfg : Config) (cmap : List (String × Int))
    (s : EngineState) (h : Reachable cfg cmap s) (hg : s.inGame = true) :
    ∀ fuel es, run cfg cmap fuel es s = Outcome.ok (s, []) := by
  have hr : s.running = false := reachable_inGame_not_running cfg cmap s h hg
  intro fuel es
  cases es with
  | nil => rfl
  | cons e es => simp [run, hr]

/-- Claim C6 witness: the state reached after a FINALIZATION snapshot whose
telemetry reports game time 12.4 has inGame set, and running the loop on a
further event returns it unchanged with no submissions. -/
theorem c6_in_game_terminal_witness :
    run exCfg exCmap 5 [Event.other]
        ⟨0, 0, false, false, false, false, true, 0, false⟩ =
      Outcome.ok (⟨0, 0, false, false, false, false, true, 0, false⟩, []) :=
  by
  have hstep : step exCfg exCmap (Event.session exSF (fun _ => true)
      (some ⟨true, some (62 / 5)⟩)) 5 initState =
      Outcome.ok (⟨0, 0, false, false, false, false, true, 0, false⟩, []) := by
    have h := finalization_game_start exCfg exCmap initState 0 (fun _ => true)
      5 (62 / 5) rfl
    norm_num at h
    exact h
  exact c6_in_game_terminal exCfg exCmap
    ⟨0, 0, false, false, false, false, true, 0, false⟩
    (Reachable.next initState ⟨0, 0, false, false, false, false, true, 0, false⟩
      (Event.session exSF (fun _ => true) (some ⟨true, some (62 / 5)⟩)) 5 []
      Reachable.init rfl hstep)
    rfl 5 [Event.other]

/-- Claim C7: the prepick flag is reset during the processing of every
snapshot regardless of its prior value — the handler's result does not
depend on the incoming haveIPrepicked at all — and the flag comes out true
only when the snapshot's phase was PLANNING and the submission log of the
cycle contains a successful submission with completed false (the pre-pick). -/
theorem c7_prepick_flag (cfg : Config) (cmap : List (String × Int)) :
    (∀ raw orc poll fuel st b,
      processSession cfg cmap raw orc poll fuel
          { st with haveIPrepicked := b } =
        processSession cfg cmap raw orc poll fuel st) ∧
    (∀ raw orc poll fuel st q,
      processSession cfg cmap raw orc poll fuel st = Outcome.ok q →
      q.1.haveIPrepicked = true →
      raw.timerPhase = some "PLANNING" ∧
        ∃ x ∈ q.2, x.2 = true ∧ x.1.completed = false) := by
  constructor
  · intro raw orc poll fuel st b
    cases st
    rfl
  · intro raw orc poll fuel st q h hq
    obtain ⟨l, phase, team, groups, assigned, st2, cnt, subs, st3, subs3,
      hlc, hph, htm, hac, hsc, hpg, hpl, hf⟩ :=
      processSession_inv cfg cmap raw orc poll fuel st q h
    have h2 := processGroups_preserves cfg cmap phase l orc fuel groups
      { st with haveIPrepicked := false, amIAssigned := assigned } 0 st2 cnt
      subs hpg
    have hst2 : st2.haveIPrepicked = false := h2.1
    have hfin := finalStep_inv phase poll st3 subs3 q hf
    have hq1 : st3.haveIPrepicked = true := by
      rcases hfin.2 with h1 | h1 <;> rw [h1] at hq <;> exact hq
    rcases planningStep_inv cfg cmap phase orc cnt st2 subs st3 subs3 hpl with
      ⟨rfl, rfl⟩ | ⟨cid, hphase, hpre, hbr⟩
    · rw [hst2] at hq1
      exact Bool.noConfusion hq1
    · rcases hbr with ⟨hst3, hsubs3⟩ | ⟨hst3, hsubs3⟩
      · refine ⟨?_, ?_⟩
        · rw [hph, hphase]
        · refine ⟨(⟨st2.actionId, cid, false⟩, true), ?_, rfl, rfl⟩
          rw [hfin.1, hsubs3]
          simp
      · rw [hst3, hst2] at hq1
        exact Bool.noConfusion hq1

/-- Claim C7 witness: a PLANNING snapshot processed from the initial state
(with a successful pre-pick) yields a state with the flag set, so the
theorem applies and exhibits the successful completed-false submission. -/
theorem c7_prepick_flag_witness :
    (⟨some 0, some "PLANNING", some [], some []⟩ : RawSession).timerPhase =
        some "PLANNING" ∧
      ∃ x ∈ [((⟨0, 42, false⟩ : Submission), true)], x.2 = true ∧
        x.1.completed = false :=
  (c7_prepick_flag exCfg exCmap).2 ⟨some 0, some "PLANNING", some [], some []⟩
    (fun _ => true) none 5 initState
    (⟨0, 0, false, false, false, true, false, 0, true⟩,
      [(⟨0, 42, false⟩, true)]) rfl rfl

/-- Counting successes distributes over appended submission logs. -/
theorem succCount_append (x y : List (Submission × Bool)) :
    succCount (x ++ y) = succCount x + succCount y := by
  simp [succCount, List.countP_append]

/-- A ban scan's trace contains at most one successful attempt. -/
theorem banScan_succ_le_one (bans : List String) (cmap : List (String × Int))
    (aid : Int) (orc : Nat → Bool) :
    ∀ fuel a n,
      (banScan bans cmap aid orc fuel a n).1.countP (fun x => x.2.2) ≤ 1 := by
  intro fuel
  induction fuel with
  | zero => intro a n; simp [banScan]
  | succ f ih =>
    intro a n
    cases hg : bans[n]? with
    | none => simp [banScan, hg]
    | some name =>
      cases hl : champLookup cmap name with
      | none =>
        simp only [banScan, hg, hl]
        exact ih a ((n + 1) % bans.length)
      | some cid =>
        cases ho : orc a with
        | true => simp [banScan, hg, hl, ho]
        | false =>
          simp only [banScan, hg, hl, ho, Bool.false_eq_true, if_false,
            List.countP_cons]
          simpa using ih (a + 1) n

/-- A pick scan's trace contains at most one successful attempt. -/
theorem pickScan_succ_le_one (picks : List String)
    (cmap : List (String × Int)) (aid : Int) (orc : Nat → Bool) :
    ∀ fuel a n,
      (pickScan picks cmap aid orc fuel a n).1.countP (fun x => x.2.2) ≤ 1 := by
  intro fuel
  induction fuel with
  | zero => intro a n; simp [pickScan]
  | succ f ih =>
    intro a n
    cases hg : picks[n]? with
    | none => simp [pickScan, hg]
    | some name =>
      cases hl : champLookup cmap name with
      | none =>
        simp only [pickScan, hg, hl]
        exact ih a ((n + 1) % picks.length)
      | some cid =>
        cases ho : orc a with
        | true => simp [pickScan, hg, hl, ho]
        | false =>
          simp only [pickScan, hg, hl, ho, Bool.false_eq_true, if_false,
            List.countP_cons]
          simpa using ih (a + 1) n

/-- One action entry contributes at most one successful submission, and none
unless it is an in-progress action of the local player. -/
theorem processAction_succ_bound (cfg : Config) (cmap : List (String × Int))
    (phase : String) (l : Int) (orc : Nat → Bool) (fuel : Nat)
    (a : RawAction) (st : EngineState) (cnt : Nat) (st' : EngineState)
    (cnt' : Nat) (subs : List (Submission × Bool))
    (h : processAction cfg cmap phase l orc fuel a st cnt =
      Outcome.ok (st', cnt', subs)) :
    succCount subs ≤ if inProgLocal l a then 1 else 0 := by
  unfold processAction at h
  by_cases hact : a.actorCellId = some l
  · rw [if_pos hact] at h
    cases hip : a.isInProgress with
    | none =>
      simp only [hip] at h
      exact Outcome.noConfusion h
    | some ip =>
      simp only [hip] at h
      cases ip with
      | false =>
        simp only [Bool.false_eq_true, if_false, Outcome.ok.injEq,
          Prod.mk.injEq] at h
        obtain ⟨-, -, rfl⟩ := h
        simp [succCount]
      | true =>
        simp only [if_true] at h
        cases hty : a.type with
        | none =>
          simp only [hty] at h
          exact Outcome.noConfusion h
        | some ty =>
          simp only [hty] at h
          cases hid : a.id with
          | none =>
            simp only [hid] at h
            exact Outcome.noConfusion h
          | some k =>
            simp only [hid] at h
            have hin : inProgLocal l a = true := by
              simp [inProgLocal, hact, hip]
            have hgoal : succCount subs ≤ 1 := by
              by_cases hty1 : ty = "ban"
              · subst hty1
                simp at h
                by_cases hph : phase = "BAN_PICK"
                · rw [if_pos hph] at h
                  cases hbs : (banScan cfg.bans cmap k orc fuel cnt
                      st.banNumber).2 with
                  | done n2 =>
                    simp only [hbs, Outcome.ok.injEq, Prod.mk.injEq] at h
                    obtain ⟨-, -, rfl⟩ := h
                    simpa [succCount, List.countP_map, Function.comp] using
                      banScan_succ_le_one cfg.bans cmap k orc fuel cnt
                        st.banNumber
                  | fuelOut c =>
                    simp only [hbs] at h
                    exact Outcome.noConfusion h
                  | panicked =>
                    simp only [hbs] at h
                    exact Outcome.noConfusion h
                · rw [if_neg hph] at h
                  simp only [Outcome.ok.injEq, Prod.mk.injEq] at h
                  obtain ⟨-, -, rfl⟩ := h
                  simp [succCount]
              · by_cases hty2 : ty = "pick"
                · subst hty2
                  simp at h
                  by_cases hph : phase = "BAN_PICK"
                  · rw [if_pos hph] at h
                    cases hbs : (pickScan cfg.picks cmap k orc fuel cnt
                        st.pickNumber).2 with
                    | done n2 =>
                      simp only [hbs, Outcome.ok.injEq, Prod.mk.injEq] at h
                      obtain ⟨-, -, rfl⟩ := h
                      simpa [succCount, List.countP_map, Function.comp] using
                        pickScan_succ_le_one cfg.picks cmap k orc fuel cnt
                          st.pickNumber
                    | fuelOut c =>
                      simp only [hbs] at h
                      exact Outcome.noConfusion h
                    | panicked =>
                      simp only [hbs] at h
                      exact Outcome.noConfusion h
                  · rw [if_neg hph] at h
                    simp only [Outcome.ok.injEq, Prod.mk.injEq] at h
                    obtain ⟨-, -, rfl⟩ := h
                    simp [succCount]
                · simp [hty1, hty2] at h
                  obtain ⟨-, -, rfl⟩ := h
                  simp [succCount]
            simpa [hin] using hgoal
  · rw [if_neg hact] at h
    simp only [Outcome.ok.injEq, Prod.mk.injEq] at h
    obtain ⟨-, -, rfl⟩ := h
    simp [succCount]

/-- The inner action loop produces at most one successful submission per
in-progress local action it contains. -/
theorem processActionsList_succ_bound (cfg : Config)
    (cmap : List (String × Int)) (phase : String) (l : Int)
    (orc : Nat → Bool) (fuel : Nat) :
    ∀ (acts : List RawAction) (st : EngineState) (cnt : Nat)
      (st' : EngineState) (cnt' : Nat) (subs : List (Submission × Bool)),
      processActionsList cfg cmap phase l orc fuel acts st cnt =
        Outcome.ok (st', cnt', subs) →
      succCount subs ≤ acts.countP (inProgLocal l) := by
  intro acts
  induction acts with
  | nil =>
    intro st cnt st' cnt' subs h
    simp only [processActionsList, Outcome.ok.injEq, Prod.mk.injEq] at h
    obtain ⟨-, -, rfl⟩ := h
    simp [succCount]
  | cons a rest ih =>
    intro st cnt st' cnt' subs h
    simp only [processActionsList] at h
    cases hpa : processAction cfg cmap phase l orc fuel a st cnt with
    | panicked =>
      simp only [hpa] at h
      exact Outcome.noConfusion h
    | hang =>
      simp only [hpa] at h
      exact Outcome.noConfusion h
    | ok p =>
      obtain ⟨st1, cnt1, subs1⟩ := p
      simp only [hpa] at h
      cases hrest : processActionsList cfg cmap phase l orc fuel rest st1 cnt1
        with
      | panicked =>
        simp only [hrest] at h
        exact Outcome.noConfusion h
      | hang =>
        simp only [hrest] at h
        exact Outcome.noConfusion h
      | ok p2 =>
        obtain ⟨st2, cnt2, subs2⟩ := p2
        simp only [hrest, Outcome.ok.injEq, Prod.mk.injEq] at h
        obtain ⟨-, -, rfl⟩ := h
        have h1 := processAction_succ_bound cfg cmap phase l orc fuel a st cnt
          st1 cnt1 subs1 hpa
        have h2 := ih st1 cnt1 st2 cnt2 subs2 hrest
        rw [succCount_append, List.countP_cons]
        by_cases hin : inProgLocal l a <;> simp [hin] at h1 ⊢ <;> omega

/-- The outer group loop produces at most one successful submission per
in-progress local action declared in the groups. -/
theorem processGroups_succ_bound (cfg : Config) (cmap : List (String × Int))
    (phase : String) (l : Int) (orc : Nat → Bool) (fuel : Nat) :
    ∀ (groups : List (Option (List RawAction))) (st : EngineState) (cnt : Nat)
      (st' : EngineState) (cnt' : Nat) (subs : List (Submission × Bool)),
      processGroups cfg cmap phase l orc fuel groups st cnt =
        Outcome.ok (st', cnt', subs) →
      succCount subs ≤ (groups.map (groupInProgCount l)).sum := by
  intro groups
  induction groups with
  | nil =>
    intro st cnt st' cnt' subs h
    simp only [processGroups, Outcome.ok.injEq, Prod.mk.injEq] at h
    obtain ⟨-, -, rfl⟩ := h
    simp [succCount]
  | cons g rest ih =>
    intro st cnt st' cnt' subs h
    cases g with
    | none =>
      simp only [processGroups] at h
      exact Outcome.noConfusion h
    | some acts =>
      simp only [processGroups] at h
      cases hal : processActionsList cfg cmap phase l orc fuel acts st cnt with
      | panicked =>
        simp only [hal] at h
        exact Outcome.noConfusion h
      | hang =>
        simp only [hal] at h
        exact Outcome.noConfusion h
      | ok p =>
        obtain ⟨st1, cnt1, subs1⟩ := p
        simp only [hal] at h
        cases hrest : processGroups cfg cmap phase l orc fuel rest st1 cnt1
          with
        | panicked =>
          simp only [hrest] at h
          exact Outcome.noConfusion h
        | hang =>
          simp only [hrest] at h
          exact Outcome.noConfusion h
        | ok p2 =>
          obtain ⟨st2, cnt2, subs2⟩ := p2
          simp only [hrest, Outcome.ok.injEq, Prod.mk.injEq] at h
          obtain ⟨-, -, rfl⟩ := h
          have h1 := processActionsList_succ_bound cfg cmap phase l orc fuel
            acts st cnt st1 cnt1 subs1 hal
          have h2 := ih st1 cnt1 st2 cnt2 subs2 hrest
          rw [succCount_append]
          simp only [List.map_cons, List.sum_cons, groupInProgCount]
          omega

/-- The planning block adds at most one success to the submission log. -/
theorem planningStep_succ_bound (cfg : Config) (cmap : List (String × Int))
    (phase : String) (orc : Nat → Bool) (cnt : Nat) (st2 : EngineState)
    (subs : List (Submission × Bool)) (st3 : EngineState)
    (subs3 : List (Submission × Bool))
    (h : planningStep cfg cmap phase orc cnt st2 subs =
      Outcome.ok (st3, subs3)) :
    succCount subs3 ≤ succCount subs + 1 := by
  rcases planningStep_inv cfg cmap phase orc cnt st2 subs st3 subs3 h with
    ⟨-, rfl⟩ | ⟨cid, -, -, ⟨-, rfl⟩ | ⟨-, rfl⟩⟩
  · omega
  · rw [succCount_append]
    simp [succCount]
  · rw [succCount_append]
    simp [succCount]

/-- Claim C5 counterexample: the snapshot exS5 lists two in-progress local
actions (a ban and a pick); one resolution cycle issues two PATCHes, both
successful — two submission intents are produced by a single resolver
invocation on one snapshot. -/
theorem c5_counterexample :
    sessionInProgCount exS5 = 2 ∧
    processSession exCfg5 exCmap5 exS5 (fun _ => true) none 5 initState =
      Outcome.ok (⟨0, 1, false, false, false, false, false, 2, true⟩,
        [(⟨1, 10, true⟩, true), (⟨2, 20, true⟩, true)]) ∧
    succCount [((⟨1, 10, true⟩ : Submission), true), (⟨2, 20, true⟩, true)] =
      2 :=
  ⟨rfl, rfl, rfl⟩

/-- Claim C5 (amended): one resolution cycle produces at most one successful
submission per in-progress local action listed in the snapshot, plus at most
one pre-pick — not at most one overall; a snapshot with k in-progress local
actions can yield up to k + 1 successful submissions. -/
theorem c5_at_most_one_per_action (cfg : Config) (cmap : List (String × Int))
    (raw : RawSession) (orc : Nat → Bool) (poll : Option PollData)
    (fuel : Nat) (st : EngineState)
    (q : EngineState × List (Submission × Bool))
    (h : processSession cfg cmap raw orc poll fuel st = Outcome.ok q) :
    succCount q.2 ≤ sessionInProgCount raw + 1 := by
  obtain ⟨l, phase, team, groups, assigned, st2, cnt, subs, st3, subs3,
    hlc, hph, htm, hac, hsc, hpg, hpl, hf⟩ :=
    processSession_inv cfg cmap raw orc poll fuel st q h
  have h1 := processGroups_succ_bound cfg cmap phase l orc fuel groups
    { st with haveIPrepicked := false, amIAssigned := assigned } 0 st2 cnt
    subs hpg
  have h2 := planningStep_succ_bound cfg cmap phase orc cnt st2 subs st3 subs3
    hpl
  have h3 := (finalStep_inv phase poll st3 subs3 q hf).1
  have h4 : sessionInProgCount raw = (groups.map (groupInProgCount l)).sum := by
    simp [sessionInProgCount, hlc, hac]
  rw [h3]
  omega

/-- Claim C5 amended witness: the double-action snapshot's two successful
submissions satisfy the per-action bound (2 ≤ 2 + 1). -/
theorem c5_at_most_one_per_action_witness :
    succCount [((⟨1, 10, true⟩ : Submission), true), (⟨2, 20, true⟩, true)] ≤
      sessionInProgCount exS5 + 1 :=
  c5_at_most_one_per_action exCfg5 exCmap5 exS5 (fun _ => true) none 5
    initState
    (⟨0, 1, false, false, false, false, false, 2, true⟩,
      [(⟨1, 10, true⟩, true), (⟨2, 20, true⟩, true)]) rfl

/-- Claim C8 counterexample: exSP0 is a PLANNING snapshot declaring no
actions at all — no currentAction of the local player exists — yet the
handler emits a pre-pick submission, carrying the initial action id 0 rather
than any current action's id. -/
theorem c8_counterexample :
    sessionInProgCount exSP0 = 0 ∧
    processSession exCfg exCmap exSP0 (fun _ => true) none 5 initState =
      Outcome.ok (⟨0, 0, false, false, false, true, false, 0, true⟩,
        [(⟨0, 42, false⟩, true)]) :=
  ⟨rfl, rfl⟩

/-- Claim C8 (amended): during PLANNING, with havePrepicked false (as it
always is at that point, having been reset earlier in the same snapshot) and
the first pick entry in the lookup table, a pre-pick intent with the first
pick entry's champion id and completed false is emitted regardless of
whether a current action exists; its actionId is the in-progress local
action's id when the snapshot contains one, and otherwise the last recorded
action id (initially 0). -/
theorem c8_prepick_unconditional (cfg : Config) (cmap : List (String × Int))
    (st : EngineState) (l k cid : Int) (nm : String) (orc : Nat → Bool)
    (fuel : Nat) (hpick : cfg.picks[0]? = some nm)
    (hl : champLookup cmap nm = some cid) (horc : orc 0 = true) :
    (processSession cfg cmap ⟨some l, some "PLANNING", some [], some []⟩ orc
        none fuel st =
      Outcome.ok ({ st with haveIPrepicked := true },
        [(⟨st.actionId, cid, false⟩, true)])) ∧
    (processSession cfg cmap
        ⟨some l, some "PLANNING", some [],
          some [some [⟨some k, some l, some "pick", none, none, some true⟩]]⟩
        orc none fuel st =
      Outcome.ok ({ st with
          amIPicking := true
          haveIPrepicked := true
          actionId := k },
        [(⟨k, cid, false⟩, true)])) := by
  cases st
  constructor <;>
    simp_all [processSession, processGroups, processActionsList, processAction,
      scanTeam, planningStep, finalStep]

/-- Claim C8 amended witness: with pick list [Ahri], a PLANNING snapshot with
no actions pre-picks champion 42 on action id 0, and one with an in-progress
local pick action of id 9 pre-picks champion 42 on action id 9. -/
theorem c8_prepick_unconditional_witness :
    (processSession exCfg exCmap ⟨some 0, some "PLANNING", some [], some []⟩
        (fun _ => true) none 5 initState =
      Outcome.ok (⟨0, 0, false, false, false, true, false, 0, true⟩,
        [(⟨0, 42, false⟩, true)])) ∧
    (processSession exCfg exCmap
        ⟨some 0, some "PLANNING", some [],
          some [some [⟨some 9, some 0, some "pick", none, none, some true⟩]]⟩
        (fun _ => true) none 5 initState =
      Outcome.ok (⟨0, 0, false, true, false, true, false, 9, true⟩,
        [(⟨9, 42, false⟩, true)])) :=
  c8_prepick_unconditional exCfg exCmap initState 0 9 42 "Ahri"
    (fun _ => true) 5 rfl rfl rfl

/-- Claim C9: in the FINALIZATION phase, with a successful telemetry
response reporting elapsed game time t and inGame not yet set, the handler
sets inGame (and stops the loop) exactly when 0 < t; nothing is submitted. -/
theorem c9_game_start (cfg : Config) (cmap : List (String × Int))
    (st : EngineState) (l : Int) (orc : Nat → Bool) (fuel : Nat) (t : ℚ)
    (hng : st.inGame = false) :
    processSession cfg cmap ⟨some l, some "FINALIZATION", some [], some []⟩
        orc (some ⟨true, some t⟩) fuel st =
      Outcome.ok
        (if 0 < t then
          { st with haveIPrepicked := false, inGame := true, running := false }
         else { st with haveIPrepicked := false }, []) :=
  finalization_game_start cfg cmap st l orc fuel t hng

/-- Claim C9 witness: two successive FINALIZATION polls reporting game time
0.0 and then 12.4 — inGame stays false after the first and becomes true
(with the loop stopped) only after the second. -/
theorem c9_game_start_witness :
    (processSession exCfg exCmap exSF (fun _ => true)
        (some ⟨true, some 0⟩) 5 initState =
      Outcome.ok (⟨0, 0, false, false, false, false, false, 0, true⟩, [])) ∧
    (processSession exCfg exCmap exSF (fun _ => true)
        (some ⟨true, some (124 / 10)⟩) 5 initState =
      Outcome.ok (⟨0, 0, false, false, false, false, true, 0, false⟩, [])) := by
  have h0 := c9_game_start exCfg exCmap initState 0 (fun _ => true) 5 0 rfl
  have h1 := c9_game_start exCfg exCmap initState 0 (fun _ => true) 5
    (124 / 10) rfl
  norm_num at h0 h1
  refine ⟨h0, ?_⟩
  norm_num
  exact h1

end LolQ
